import Mathlib

/-!
Shallow embedding of the wasmgpu repository (src/lib.rs, src/meshgrid.rs).

Machine u32 arithmetic is modelled as natural numbers with explicit
reduction modulo 2^32.  The f32 arithmetic of the orbital camera is
idealised over the exact rationals: the f32 constants of the source are
embedded as their exact dyadic rational values, the Rust float remainder
operator is the truncated-division remainder, and clamp is min/max.
GPU-side effects (buffer/texture creation and destruction, queue
submissions, compute dispatches) are modelled by an explicit device state
carrying a fresh-id counter, the set of live resource ids and a
chronological event trace.
-/

set_option autoImplicit false

namespace Wasmgpu

/-- The modulus of u32 arithmetic. -/
def M32 : ℕ := 4294967296

/-- Wrapping u32 multiplication (operands below M32). -/
def mul32 (a b : ℕ) : ℕ := a * b % M32

/-- Wrapping u32 subtraction (operands below M32). -/
def sub32 (a b : ℕ) : ℕ := (a + (M32 - b)) % M32

/-- Truncation toward zero, the rounding used by the Rust float remainder. -/
def rustTrunc (q : ℚ) : ℤ := if 0 ≤ q then ⌊q⌋ else ⌈q⌉

/-- The Rust binary remainder on floats, idealised over the rationals:
the remainder of truncated division, with the sign of the dividend. -/
def rustRem (a b : ℚ) : ℚ := a - b * rustTrunc (a / b)

/-- Embedding of the free function float_modulo of src/lib.rs. -/
def float_modulo (a b : ℚ) : ℚ :=
  let r := rustRem a b
  if r < 0 then r + |b| else r

/-- The Rust clamp on floats (for lo below hi, and away from NaN). -/
def rustClamp (x lo hi : ℚ) : ℚ := min (max x lo) hi

/-- The exact value of the f32 constant core::f32::consts::PI. -/
def PI32 : ℚ := 13176795 / 4194304

/-- The exact value of the f32 constant core::f32::consts::TAU. -/
def TAU32 : ℚ := 13176795 / 2097152

/-- Embedding of the struct Camera of src/lib.rs. -/
structure Camera where
  target : ℚ × ℚ × ℚ
  distance : ℚ
  zenith : ℚ
  azimuth : ℚ
  aspect : ℚ
  fovy : ℚ
  znear : ℚ
  zfar : ℚ
deriving DecidableEq

namespace Camera

/-- The exact value of the f32 constant Camera::CLOSEST = 0.1f32. -/
def CLOSEST : ℚ := 13421773 / 134217728

/-- The exact value of the f32 constant Camera::FARTHEST = 15.0f32. -/
def FARTHEST : ℚ := 15

/-- The exact value of the f32 constant Camera::ZENITH_CLAMP = 0.01f32. -/
def ZENITH_CLAMP : ℚ := 10737418 / 1073741824

/-- Embedding of Camera::rotate_zenith. -/
def rotate_zenith (c : Camera) (angle : ℚ) : Camera :=
  { c with zenith := rustClamp (c.zenith + angle) ZENITH_CLAMP (PI32 - ZENITH_CLAMP) }

/-- Embedding of Camera::rotate_azimuth. -/
def rotate_azimuth (c : Camera) (angle : ℚ) : Camera :=
  { c with azimuth := float_modulo (c.azimuth + angle) TAU32 }

/-- Embedding of Camera::move_distance: a multiplicative zoom followed by
a clamp into the closed distance range. -/
def move_distance (c : Camera) (distance : ℚ) : Camera :=
  { c with distance := rustClamp (c.distance * (1 - distance)) CLOSEST FARTHEST }

/-- The numeric bounds the spec asserts for the mutable camera fields. -/
def inBounds (c : Camera) : Prop :=
  ZENITH_CLAMP ≤ c.zenith ∧ c.zenith ≤ PI32 - ZENITH_CLAMP ∧
  0 ≤ c.azimuth ∧ c.azimuth < TAU32 ∧
  CLOSEST ≤ c.distance ∧ c.distance ≤ FARTHEST

instance (c : Camera) : Decidable c.inBounds := by
  unfold inBounds; infer_instance

end Camera

/-- One call to a mutating camera method. -/
inductive CameraOp where
  | rotateZenith (angle : ℚ)
  | rotateAzimuth (angle : ℚ)
  | moveDistance (distance : ℚ)
deriving DecidableEq

/-- Apply one camera mutation. -/
def applyOp (c : Camera) : CameraOp → Camera
  | .rotateZenith a => c.rotate_zenith a
  | .rotateAzimuth a => c.rotate_azimuth a
  | .moveDistance a => c.move_distance a

/-- Apply a finite sequence of camera mutations, oldest first. -/
def applyOps (c : Camera) (ops : List CameraOp) : Camera :=
  ops.foldl applyOp c

/-- A GPU buffer handle: its device id and its byte size. -/
structure GpuBuffer where
  id : ℕ
  size : ℕ
deriving DecidableEq

/-- The texture formats the code uses: the fixed depth format
Depth32Float and the (opaque) negotiated surface colour format. -/
inductive TexFormat where
  | Depth32Float
  | SurfaceFormat
deriving DecidableEq

/-- A GPU texture handle with the descriptor fields the code chooses. -/
structure GpuTexture where
  id : ℕ
  width : ℕ
  height : ℕ
  sampleCount : ℕ
  format : TexFormat
deriving DecidableEq

/-- The compute pipelines dispatched by the code. -/
inductive PipelineId where
  | genVertex
  | genIndex
  | evaluator
deriving DecidableEq

/-- Observable GPU-side effects, in chronological order.  A dispatch
records the pipeline, the id of the storage buffer bound to it and the
workgroup counts; a camera-uniform write records the camera whose
view-projection matrix is uploaded. -/
inductive GpuEvent where
  | createBuffer (id size : ℕ)
  | destroyBuffer (id : ℕ)
  | createTexture (id : ℕ)
  | destroyTexture (id : ℕ)
  | writeGeneratorUniform (resolution : ℕ × ℕ) (xRange yRange : ℚ × ℚ)
  | writeCameraUniform (id : ℕ) (camera : Camera)
  | configureSurface (width height : ℕ)
  | dispatch (p : PipelineId) (bindGroup x y z : ℕ)
  | submitQueue
  | drawIndexed (indexCount : ℕ)
  | present
deriving DecidableEq

/-- The device: a fresh-id counter, the ids of live (created and not yet
destroyed) resources, and the event trace. -/
structure Device where
  nextId : ℕ
  live : List ℕ
  trace : List GpuEvent
deriving DecidableEq

namespace Device

/-- The device of a fresh run: no resources, empty trace. -/
def empty : Device := ⟨0, [], []⟩

/-- Record an event. -/
def emit (d : Device) (e : GpuEvent) : Device :=
  { d with trace := d.trace ++ [e] }

/-- Allocate a fresh buffer of the given byte size. -/
def createBuffer (d : Device) (size : ℕ) : GpuBuffer × Device :=
  (⟨d.nextId, size⟩,
   { nextId := d.nextId + 1,
     live := d.nextId :: d.live,
     trace := d.trace ++ [.createBuffer d.nextId size] })

/-- Destroy a buffer. -/
def destroyBuffer (d : Device) (b : GpuBuffer) : Device :=
  { d with live := d.live.erase b.id, trace := d.trace ++ [.destroyBuffer b.id] }

/-- Allocate a fresh texture with the given descriptor fields. -/
def createTexture (d : Device) (width height sampleCount : ℕ)
    (format : TexFormat) : GpuTexture × Device :=
  (⟨d.nextId, width, height, sampleCount, format⟩,
   { nextId := d.nextId + 1,
     live := d.nextId :: d.live,
     trace := d.trace ++ [.createTexture d.nextId] })

/-- Destroy a texture. -/
def destroyTexture (d : Device) (t : GpuTexture) : Device :=
  { d with live := d.live.erase t.id, trace := d.trace ++ [.destroyTexture t.id] }

end Device

/-- The index formats of wgpu. -/
inductive IndexFormat where
  | Uint16
  | Uint32
deriving DecidableEq

/-- Embedding of the struct GridBuffers of src/meshgrid.rs.  The
evaluator bind group is identified by the id of the vertex buffer it
binds. -/
structure GridBuffers where
  vertex_buffer : GpuBuffer
  index_buffer : GpuBuffer
  index_count : ℕ
  index_format : IndexFormat
  evaluator_dispatch_count : ℕ
  evaluator_bind_group : ℕ
deriving DecidableEq

/-- Embedding of Generator::generate_buffers of src/meshgrid.rs.  All
count arithmetic is u32 arithmetic; the workgroup chunk counts follow the
source's shift/mask formulation, with and-0xf as mod 16 and
shift-right-4 as division by 16 (the resolution components are u32
values, hence below M32). -/
def generate_buffers (d : Device) (grid_resolution : ℕ × ℕ)
    (x_range y_range : ℚ × ℚ) : GridBuffers × Device :=
  let grid_leftover := (grid_resolution.1 % 16, grid_resolution.2 % 16)
  let grid_chunks :=
    (if grid_leftover.1 > 0 then grid_resolution.1 / 16 + 1 else grid_resolution.1 / 16,
     if grid_leftover.2 > 0 then grid_resolution.2 / 16 + 1 else grid_resolution.2 / 16)
  let vertex_count := mul32 grid_resolution.1 grid_resolution.2
  let vertex_byte_count := mul32 (mul32 vertex_count 4) 6
  let index_count := mul32 (mul32 (sub32 grid_resolution.1 1) (sub32 grid_resolution.2 1)) 6
  let index_byte_count := mul32 index_count 4
  let d := d.emit (.writeGeneratorUniform grid_resolution x_range y_range)
  let (vertex_buffer, d) := d.createBuffer vertex_byte_count
  let (index_buffer, d) := d.createBuffer index_byte_count
  let d := d.emit (.dispatch .genVertex vertex_buffer.id grid_chunks.1 grid_chunks.2 1)
  let d := d.emit (.dispatch .genIndex index_buffer.id grid_chunks.1 grid_chunks.2 1)
  let d := d.emit .submitQueue
  let evaluator_dispatch_count :=
    if vertex_count % 256 > 0 then vertex_count / 256 + 1 else vertex_count / 256
  (⟨vertex_buffer, index_buffer, index_count, .Uint32,
    evaluator_dispatch_count, vertex_buffer.id⟩, d)

/-- Embedding of Evaluator::evaluate_buffers of src/meshgrid.rs: one
compute pass dispatching the evaluator pipeline once per grid buffer,
then one queue submission. -/
def evaluate_buffers (d : Device) (grid_buffers : List GridBuffers) : Device :=
  let d := grid_buffers.foldl
    (fun acc gb =>
      acc.emit (.dispatch .evaluator gb.evaluator_bind_group gb.evaluator_dispatch_count 1 1))
    d
  d.emit .submitQueue

/-- Modelled from the spec: GridBuffers::destroy is invoked by
State::set_grid_resolution but is not defined in the source files at
hand; per the spec, grid buffers are "destroyed explicitly by the owner
(State) before replacement", so it destroys the held vertex and index
buffers on the device. -/
def GridBuffers.destroy (gb : GridBuffers) (d : Device) : Device :=
  (d.destroyBuffer gb.vertex_buffer).destroyBuffer gb.index_buffer

/-- The surface configuration fields the code mutates (the negotiated
colour format is fixed and left implicit). -/
structure SurfaceConfig where
  width : ℕ
  height : ℕ
deriving DecidableEq

/-- The declared render pipeline descriptor data the claims observe: the
multisample count it was built with. -/
structure RenderPipeline where
  sampleCount : ℕ
deriving DecidableEq

/-- Embedding of the struct State of src/lib.rs (device, queue, shader
modules and layouts are carried by the separate Device model or are
constant). -/
structure State where
  config : SurfaceConfig
  meshgrid_buffers : GridBuffers
  depth_texture : GpuTexture
  depth_texture_view : ℕ
  render_pipeline : RenderPipeline
  camera : Camera
  camera_buffer : ℕ
  multisample_texture : Option GpuTexture
  multisample_texture_view : Option ℕ
  multisampling_enabled : Bool
deriving DecidableEq

namespace State

/-- State::MSAA_SAMPLE_COUNT. -/
def MSAA_SAMPLE_COUNT : ℕ := 4

/-- Embedding of State::create_depth_texture: a texture of the configured
size at the requested sample count in the fixed depth format, plus its
view (views are identified with their texture's id). -/
def create_depth_texture (d : Device) (config : SurfaceConfig)
    (sample_count : ℕ) : (GpuTexture × ℕ) × Device :=
  let (t, d) := d.createTexture config.width config.height sample_count .Depth32Float
  ((t, t.id), d)

/-- Embedding of State::create_multisample_texture: always built at
MSAA_SAMPLE_COUNT in the surface colour format. -/
def create_multisample_texture (d : Device) (config : SurfaceConfig) :
    (GpuTexture × ℕ) × Device :=
  let (t, d) := d.createTexture config.width config.height MSAA_SAMPLE_COUNT .SurfaceFormat
  ((t, t.id), d)

/-- Embedding of State::resize of src/lib.rs. -/
def resize (s : State) (d : Device) (width height : ℕ) : State × Device :=
  if 0 < width ∧ 0 < height then
    let config : SurfaceConfig := ⟨width, height⟩
    let d := d.emit (.configureSurface width height)
    let d := d.destroyTexture s.depth_texture
    let r :=
      if s.multisampling_enabled then
        let d :=
          match s.multisample_texture with
          | some t => d.destroyTexture t
          | none => d
        let (tv, d) := create_multisample_texture d config
        (MSAA_SAMPLE_COUNT, some tv.1, some tv.2, d)
      else
        (1, s.multisample_texture, s.multisample_texture_view, d)
    let (dtv, d) := create_depth_texture r.2.2.2 config r.1
    let camera := { s.camera with aspect := (width : ℚ) / (height : ℚ) }
    let d := d.emit (.writeCameraUniform s.camera_buffer camera)
    ({ s with
        config := config,
        depth_texture := dtv.1,
        depth_texture_view := dtv.2,
        multisample_texture := r.2.1,
        multisample_texture_view := r.2.2.1,
        camera := camera }, d)
  else
    (s, d)

/-- Embedding of State::set_grid_resolution of src/lib.rs: destroy the
old grid buffers, generate replacements over the fixed numeric ranges,
evaluate them, install them. -/
def set_grid_resolution (s : State) (d : Device) (width height : ℕ) :
    State × Device :=
  let d := s.meshgrid_buffers.destroy d
  let (meshgrid_buffers, d) := generate_buffers d (width, height) (-5, 5) (-5, 5)
  let d := evaluate_buffers d [meshgrid_buffers]
  ({ s with meshgrid_buffers := meshgrid_buffers }, d)

/-- Embedding of State::move_camera of src/lib.rs: the three camera
mutations in source order, then the camera uniform upload. -/
def move_camera (s : State) (d : Device) (distance zenith azimuth : ℚ) :
    State × Device :=
  let camera := ((s.camera.move_distance distance).rotate_zenith zenith).rotate_azimuth azimuth
  let d := d.emit (.writeCameraUniform s.camera_buffer camera)
  ({ s with camera := camera }, d)

/-- Embedding of State::render of src/lib.rs.  The value none models the
panic of the expect on a missing multisample texture view; the surface
texture acquisition is an external collaborator assumed to succeed. -/
def render (s : State) (d : Device) : Option (State × Device) :=
  if s.multisampling_enabled ∧ s.multisample_texture_view = none then
    none
  else
    let d := d.emit (.drawIndexed s.meshgrid_buffers.index_count)
    let d := d.emit .submitQueue
    let d := d.emit .present
    some (s, d)

/-- Embedding of State::set_multisampling_enabled of src/lib.rs.  The
value none models the panic of the expect on a missing multisample
texture when disabling. -/
def set_multisampling_enabled (s : State) (d : Device) (enabled : Bool) :
    Option (State × Device) :=
  if enabled then
    if s.multisampling_enabled then
      some (s, d)
    else
      let s := { s with multisampling_enabled := true }
      let (s, d) := s.resize d s.config.width s.config.height
      some ({ s with render_pipeline := ⟨MSAA_SAMPLE_COUNT⟩ }, d)
  else
    if !s.multisampling_enabled then
      some (s, d)
    else
      match s.multisample_texture with
      | none => none
      | some t =>
        let d := d.destroyTexture t
        let s := { s with
          multisampling_enabled := false,
          multisample_texture := none,
          multisample_texture_view := none }
        let (s, d) := s.resize d s.config.width s.config.height
        some ({ s with render_pipeline := ⟨1⟩ }, d)

end State

/-- Embedding of the struct JsApp of src/lib.rs. -/
structure JsApp where
  inner : State

namespace JsApp

/-- Embedding of JsApp::move_camera of src/lib.rs: the zenith and
azimuth deltas are scaled by PI before reaching the inner State. -/
def move_camera (app : JsApp) (d : Device) (distance zenith azimuth : ℚ) :
    JsApp × Device :=
  let (s, d) := app.inner.move_camera d distance (zenith * PI32) (azimuth * PI32)
  (⟨s⟩, d)

end JsApp

/-- A concrete camera whose mutable fields are within bounds. -/
def sampleCamera : Camera := ⟨(0, 0, 0), 12, 1, 1, 1, 1, 1 / 10, 100⟩

/-- Recognises the dispatches of the two generation compute pipelines. -/
def isGenDispatch : GpuEvent → Bool
  | .dispatch .genVertex _ _ _ _ => true
  | .dispatch .genIndex _ _ _ _ => true
  | _ => false

/-- The resource invariant of State asserted by the spec: the
multisample colour texture (and its view) exist exactly when
multisampling is enabled, the depth texture's sample count equals the
active render sample count, and the configured surface has positive
area (a zero-area surface cannot be configured). -/
def StateInv (s : State) : Prop :=
  s.multisample_texture.isSome = s.multisampling_enabled ∧
  s.multisample_texture_view.isSome = s.multisampling_enabled ∧
  s.depth_texture.sampleCount
      = (if s.multisampling_enabled then State.MSAA_SAMPLE_COUNT else 1) ∧
  0 < s.config.width ∧ 0 < s.config.height

/-- The round-trip scenario: enable multisampling, then disable it. -/
def msRoundTrip (s : State) (d : Device) : Option (State × Device) :=
  (s.set_multisampling_enabled d true).bind
    (fun p => p.1.set_multisampling_enabled p.2 false)

/-- A concrete set of grid buffers (the 5x5 grid's numbers). -/
def sampleGrid : GridBuffers := ⟨⟨0, 600⟩, ⟨1, 384⟩, 96, .Uint32, 1, 0⟩

/-- A concrete state satisfying StateInv, with multisampling disabled. -/
def sampleState : State :=
  ⟨⟨800, 600⟩, sampleGrid, ⟨2, 800, 600, 1, .Depth32Float⟩, 2, ⟨1⟩,
   sampleCamera, 3, none, none, false⟩

theorem rustRem_eq_fract {a b : ℚ} (hb : b ≠ 0) (h : 0 ≤ a / b) :
    rustRem a b = b * Int.fract (a / b) := by
  unfold rustRem rustTrunc
  rw [if_pos h, Int.fract, mul_sub]
  rw [mul_div_cancel₀ a hb]

theorem rustRem_neg_case {a b : ℚ} (hb : b ≠ 0) (h : ¬ 0 ≤ a / b) :
    rustRem a b = b * (a / b - ⌈a / b⌉) := by
  unfold rustRem rustTrunc
  rw [if_neg h, mul_sub, mul_div_cancel₀ a hb]

/-- float_modulo with a positive modulus is the floor-style (always
non-negative) modulo. -/
theorem float_modulo_eq_floor_mod {a b : ℚ} (hb : 0 < b) :
    float_modulo a b = a - b * ⌊a / b⌋ := by
  have hb' : b ≠ 0 := ne_of_gt hb
  unfold float_modulo
  by_cases h : 0 ≤ a / b
  · rw [rustRem_eq_fract hb' h]
    have h0 : 0 ≤ b * Int.fract (a / b) :=
      mul_nonneg (le_of_lt hb) (Int.fract_nonneg _)
    rw [if_neg (not_lt.mpr h0), Int.fract, mul_sub, mul_div_cancel₀ a hb']
  · rw [rustRem_neg_case hb' h]
    by_cases hr : b * (a / b - ⌈a / b⌉) < 0
    · rw [if_pos hr, abs_of_pos hb]
      have hq : a / b - ⌈a / b⌉ < 0 := by
        by_contra hq
        exact absurd (mul_nonneg (le_of_lt hb) (not_lt.mp hq)) (not_le.mpr hr)
      have hlt : (⌊a / b⌋ : ℚ) < ⌈a / b⌉ := by
        calc (⌊a / b⌋ : ℚ) ≤ a / b := Int.floor_le _
        _ < ⌈a / b⌉ := by linarith
      have hlt' : ⌊a / b⌋ < ⌈a / b⌉ := by exact_mod_cast hlt
      have hle : ⌈a / b⌉ ≤ ⌊a / b⌋ + 1 := Int.ceil_le_floor_add_one _
      have hceil : ⌈a / b⌉ = ⌊a / b⌋ + 1 := by omega
      rw [hceil]
      push_cast
      linear_combination mul_div_cancel₀ a hb'
    · rw [if_neg hr]
      have hle : a / b - ⌈a / b⌉ ≤ 0 := by linarith [Int.le_ceil (a / b)]
      have hge : 0 ≤ a / b - ⌈a / b⌉ := by
        rcases lt_trichotomy (a / b - ⌈a / b⌉) 0 with hlt | heq | hgt
        · exact absurd (by nlinarith : b * (a / b - ⌈a / b⌉) < 0) hr
        · exact le_of_eq heq.symm
        · exact le_of_lt hgt
      have heq : a / b = (⌈a / b⌉ : ℚ) := by linarith
      have hfl : ⌊a / b⌋ = ⌈a / b⌉ := by
        conv_lhs => rw [heq]
        exact Int.floor_intCast _
      rw [hfl]
      linear_combination mul_div_cancel₀ a hb'

/-- float_modulo with a positive modulus lands in the half-open interval
from zero to the modulus. -/
theorem float_modulo_bounds {a b : ℚ} (hb : 0 < b) :
    0 ≤ float_modulo a b ∧ float_modulo a b < b := by
  rw [float_modulo_eq_floor_mod hb]
  have h1 : a - b * ⌊a / b⌋ = b * Int.fract (a / b) := by
    rw [Int.fract, mul_sub, mul_div_cancel₀ a (ne_of_gt hb)]
  rw [h1]
  constructor
  · exact mul_nonneg (le_of_lt hb) (Int.fract_nonneg _)
  · calc b * Int.fract (a / b) < b * 1 :=
      (mul_lt_mul_left hb).mpr (Int.fract_lt_one _)
    _ = b := mul_one b

theorem TAU32_pos : (0 : ℚ) < TAU32 := by norm_num [TAU32]

theorem zenith_clamp_le : Camera.ZENITH_CLAMP ≤ PI32 - Camera.ZENITH_CLAMP := by
  norm_num [Camera.ZENITH_CLAMP, PI32]

theorem closest_le_farthest : Camera.CLOSEST ≤ Camera.FARTHEST := by
  norm_num [Camera.CLOSEST, Camera.FARTHEST]

theorem rustClamp_bounds {x lo hi : ℚ} (h : lo ≤ hi) :
    lo ≤ rustClamp x lo hi ∧ rustClamp x lo hi ≤ hi := by
  unfold rustClamp
  constructor
  · exact le_min (le_max_right x lo) h
  · exact min_le_right _ _

/-- Each single camera mutation preserves the numeric bounds. -/
theorem applyOp_preserves_inBounds (c : Camera) (op : CameraOp)
    (hc : c.inBounds) : (applyOp c op).inBounds := by
  obtain ⟨h1, h2, h3, h4, h5, h6⟩ := hc
  cases op with
  | rotateZenith a =>
    have h := rustClamp_bounds (x := c.zenith + a) zenith_clamp_le
    exact ⟨h.1, h.2, h3, h4, h5, h6⟩
  | rotateAzimuth a =>
    have h := float_modulo_bounds (a := c.azimuth + a) TAU32_pos
    exact ⟨h1, h2, h.1, h.2, h5, h6⟩
  | moveDistance a =>
    have h := rustClamp_bounds (x := c.distance * (1 - a)) closest_le_farthest
    exact ⟨h1, h2, h3, h4, h.1, h.2⟩

theorem rustRem_bounds {a b : ℚ} (hb : 0 < b) :
    -b < rustRem a b ∧ rustRem a b < b := by
  by_cases h : 0 ≤ a / b
  · rw [rustRem_eq_fract (ne_of_gt hb) h]
    constructor
    · have h0 := mul_nonneg hb.le (Int.fract_nonneg (a / b))
      linarith
    · have h1 := (mul_lt_mul_left hb).mpr (Int.fract_lt_one (a / b))
      simpa using h1
  · rw [rustRem_neg_case (ne_of_gt hb) h]
    have h1 : a / b - ⌈a / b⌉ ≤ 0 := by linarith [Int.le_ceil (a / b)]
    have h2 : -1 < a / b - ⌈a / b⌉ := by linarith [Int.ceil_lt_add_one (a / b)]
    constructor
    · nlinarith
    · nlinarith

theorem rustRem_self_of_lt {x b : ℚ} (hb : 0 < b) (h0 : 0 ≤ x) (h1 : x < b) :
    rustRem x b = x := by
  have hq0 : 0 ≤ x / b := div_nonneg h0 hb.le
  have hq1 : x / b < 1 := (div_lt_one hb).mpr h1
  unfold rustRem rustTrunc
  rw [if_pos hq0, Int.floor_eq_zero_iff.mpr ⟨hq0, hq1⟩]
  simp

theorem rustRem_sub_of_lt {x b : ℚ} (hb : 0 < b) (h0 : b ≤ x) (h1 : x < 2 * b) :
    rustRem x b = x - b := by
  have hq0 : (1 : ℚ) ≤ x / b := (le_div_iff₀ hb).mpr (by linarith)
  have hq1 : x / b < 2 := (div_lt_iff₀ hb).mpr (by linarith)
  have hfl : ⌊x / b⌋ = 1 := by
    rw [Int.floor_eq_iff]
    constructor
    · exact_mod_cast hq0
    · push_cast
      linarith
  unfold rustRem rustTrunc
  rw [if_pos (by linarith : (0 : ℚ) ≤ x / b), hfl]
  push_cast
  ring

/-- float_modulo with a positive modulus agrees with taking the truncated
remainder, adding the modulus and taking the truncated remainder again. -/
theorem float_modulo_eq_double_rem {a b : ℚ} (hb : 0 < b) :
    float_modulo a b = rustRem (rustRem a b + b) b := by
  have hbnd := rustRem_bounds (a := a) hb
  unfold float_modulo
  by_cases hr : rustRem a b < 0
  · rw [if_pos hr, abs_of_pos hb,
      rustRem_self_of_lt (x := rustRem a b + b) hb (by linarith) (by linarith)]
  · rw [if_neg hr,
      rustRem_sub_of_lt (x := rustRem a b + b) hb (by linarith) (by linarith)]
    ring

/-- C3: after any finite sequence of rotate_zenith, rotate_azimuth and
move_distance calls, a camera whose fields start within bounds still has
zenith in the clamped zenith interval, azimuth in the half-open interval
from 0 to TAU, and distance between CLOSEST and FARTHEST. -/
theorem camera_invariant_preserved (c : Camera) (hc : c.inBounds)
    (ops : List CameraOp) : (applyOps c ops).inBounds := by
  induction ops generalizing c with
  | nil => exact hc
  | cons op rest ih => exact ih _ (applyOp_preserves_inBounds c op hc)

theorem sampleCamera_inBounds : sampleCamera.inBounds := by
  unfold sampleCamera
  refine ⟨?_, ?_, ?_, ?_, ?_, ?_⟩ <;>
    norm_num [Camera.ZENITH_CLAMP, PI32, TAU32, Camera.CLOSEST, Camera.FARTHEST]

/-- Witness for C3 at a concrete in-bounds camera and operation list. -/
theorem camera_invariant_preserved_witness :
    sampleCamera.inBounds ∧
    (applyOps sampleCamera
      [.moveDistance (1 / 2), .rotateZenith 10, .rotateAzimuth (-10)]).inBounds :=
  ⟨sampleCamera_inBounds,
   camera_invariant_preserved sampleCamera sampleCamera_inBounds _⟩

/-- C8: rotate_azimuth computes the floor-style modulo by TAU of the sum
of the old azimuth and the delta: it equals the double truncated
remainder, equals the floor-based modulo, and is non-negative. -/
theorem rotate_azimuth_floor_modulo (c : Camera) (delta : ℚ) :
    (c.rotate_azimuth delta).azimuth
        = rustRem (rustRem (c.azimuth + delta) TAU32 + TAU32) TAU32 ∧
    (c.rotate_azimuth delta).azimuth
        = (c.azimuth + delta) - TAU32 * ⌊(c.azimuth + delta) / TAU32⌋ ∧
    0 ≤ (c.rotate_azimuth delta).azimuth := by
  have h1 : (c.rotate_azimuth delta).azimuth
      = float_modulo (c.azimuth + delta) TAU32 := rfl
  refine ⟨?_, ?_, ?_⟩
  · rw [h1, float_modulo_eq_double_rem TAU32_pos]
  · rw [h1, float_modulo_eq_floor_mod TAU32_pos]
  · rw [h1]
    exact (float_modulo_bounds TAU32_pos).1

/-- C9: JsApp::move_camera scales the zenith and azimuth deltas by PI
before they reach the inner camera, and passes the distance delta through
unscaled. -/
theorem jsapp_move_camera_scaling (app : JsApp) (d : Device)
    (distance zenith azimuth : ℚ) :
    ((app.move_camera d distance zenith azimuth).1.inner.camera).distance
        = rustClamp (app.inner.camera.distance * (1 - distance))
            Camera.CLOSEST Camera.FARTHEST ∧
    ((app.move_camera d distance zenith azimuth).1.inner.camera).zenith
        = rustClamp (app.inner.camera.zenith + zenith * PI32)
            Camera.ZENITH_CLAMP (PI32 - Camera.ZENITH_CLAMP) ∧
    ((app.move_camera d distance zenith azimuth).1.inner.camera).azimuth
        = float_modulo (app.inner.camera.azimuth + azimuth * PI32) TAU32 :=
  ⟨rfl, rfl, rfl⟩

/-- The fields of the grid buffers produced by generate_buffers, written
out against the source arithmetic. -/
theorem generate_buffers_fields (d : Device) (w h : ℕ) (xr yr : ℚ × ℚ) :
    (generate_buffers d (w, h) xr yr).1 =
      ⟨⟨d.nextId, mul32 (mul32 (mul32 w h) 4) 6⟩,
       ⟨d.nextId + 1, mul32 (mul32 (mul32 (sub32 w 1) (sub32 h 1)) 6) 4⟩,
       mul32 (mul32 (sub32 w 1) (sub32 h 1)) 6,
       .Uint32,
       if mul32 w h % 256 > 0 then mul32 w h / 256 + 1 else mul32 w h / 256,
       d.nextId⟩ := rfl

theorem mul32_chain24 (a b : ℕ) :
    mul32 (mul32 (mul32 a b) 4) 6 = 24 * (a * b) % M32 := by
  unfold mul32
  rw [Nat.mod_mul_mod, mul_assoc, Nat.mod_mul_mod]
  congr 1
  ring

theorem mul32_chain6 (a b : ℕ) : mul32 (mul32 a b) 6 = a * b * 6 % M32 := by
  unfold mul32
  rw [Nat.mod_mul_mod]

theorem mul32_four (a : ℕ) : mul32 a 4 = 4 * a % M32 := by
  unfold mul32
  congr 1
  ring

theorem sub32_eq_sub {a b : ℕ} (hb : b ≤ a) (ha : a < M32) (hb32 : b ≤ M32) :
    sub32 a b = a - b := by
  unfold sub32 M32 at *
  omega

/-- C1: for a resolution with both components at least 2 (u32 values),
generate_buffers returns a vertex buffer of 24 times w times h bytes, an
index count of six index entries per interior cell, an index buffer of 4
bytes per index, and the 32-bit unsigned index format — as u32
arithmetic, and exactly whenever the byte count does not overflow u32. -/
theorem generate_buffers_sizes (d : Device) (w h : ℕ) (xr yr : ℚ × ℚ)
    (hw : 2 ≤ w) (hw32 : w < M32) (hh : 2 ≤ h) (hh32 : h < M32) :
    ((generate_buffers d (w, h) xr yr).1.vertex_buffer.size = 24 * (w * h) % M32 ∧
     (generate_buffers d (w, h) xr yr).1.index_count = (w - 1) * (h - 1) * 6 % M32 ∧
     (generate_buffers d (w, h) xr yr).1.index_buffer.size
        = 4 * (generate_buffers d (w, h) xr yr).1.index_count % M32 ∧
     (generate_buffers d (w, h) xr yr).1.index_format = IndexFormat.Uint32) ∧
    (24 * (w * h) < M32 →
      (generate_buffers d (w, h) xr yr).1.vertex_buffer.size = 24 * (w * h) ∧
      (generate_buffers d (w, h) xr yr).1.index_count = (w - 1) * (h - 1) * 6 ∧
      (generate_buffers d (w, h) xr yr).1.index_buffer.size
        = 4 * (generate_buffers d (w, h) xr yr).1.index_count) := by
  simp only [generate_buffers_fields]
  have hsw : sub32 w 1 = w - 1 := sub32_eq_sub (by omega) hw32 (by norm_num [M32])
  have hsh : sub32 h 1 = h - 1 := sub32_eq_sub (by omega) hh32 (by norm_num [M32])
  have hic : mul32 (mul32 (sub32 w 1) (sub32 h 1)) 6 = (w - 1) * (h - 1) * 6 % M32 := by
    rw [hsw, hsh, mul32_chain6]
  have e1 : (w - 1) * (h - 1) ≤ w * h := Nat.mul_le_mul (Nat.sub_le w 1) (Nat.sub_le h 1)
  have e2 : (w - 1) * (h - 1) * 6 ≤ 24 * (w * h) := by
    calc (w - 1) * (h - 1) * 6 ≤ w * h * 6 := Nat.mul_le_mul_right 6 e1
    _ = 6 * (w * h) := Nat.mul_comm _ _
    _ ≤ 24 * (w * h) := Nat.mul_le_mul_right (w * h) (by norm_num)
  have e3 : 4 * ((w - 1) * (h - 1) * 6) ≤ 24 * (w * h) := by
    have e4 : 4 * ((w - 1) * (h - 1) * 6) = 24 * ((w - 1) * (h - 1)) := by ring
    rw [e4]
    exact le_trans (Nat.mul_le_mul_left 24 e1) (le_of_eq rfl)
  refine ⟨⟨mul32_chain24 w h, hic, mul32_four _, trivial⟩, fun hno => ?_⟩
  have hicx : mul32 (mul32 (sub32 w 1) (sub32 h 1)) 6 = (w - 1) * (h - 1) * 6 := by
    rw [hic]
    exact Nat.mod_eq_of_lt (lt_of_le_of_lt e2 hno)
  refine ⟨?_, hicx, ?_⟩
  · rw [mul32_chain24]
    exact Nat.mod_eq_of_lt hno
  · rw [mul32_four, hicx]
    exact Nat.mod_eq_of_lt (lt_of_le_of_lt e3 hno)

/-- Witness for C10 at resolution (3, 4): both wrapped subtractions agree
with the exact differences. -/
theorem generate_buffers_sizes_witness :
    (2 : ℕ) ≤ 5 ∧ (5 : ℕ) < M32 ∧
    (generate_buffers Device.empty (5, 5) (-5, 5) (-5, 5)).1.vertex_buffer.size = 600 ∧
    (generate_buffers Device.empty (5, 5) (-5, 5) (-5, 5)).1.index_count = 96 ∧
    (generate_buffers Device.empty (5, 5) (-5, 5) (-5, 5)).1.index_buffer.size = 384 ∧
    (generate_buffers Device.empty (5, 5) (-5, 5) (-5, 5)).1.index_format
      = IndexFormat.Uint32 := by
  have h := generate_buffers_sizes Device.empty 5 5 (-5, 5) (-5, 5)
    (by decide) (by decide) (by decide) (by decide)
  obtain ⟨hv, hi, hb⟩ := h.2 (by decide)
  exact ⟨by decide, by decide, hv.trans (by decide), hi.trans (by decide),
    (hb.trans (by rw [hi])).trans (by decide), h.1.2.2.2⟩

/-- The whole event trace generate_buffers appends. -/
theorem generate_buffers_trace (d : Device) (w h : ℕ) (xr yr : ℚ × ℚ) :
    (generate_buffers d (w, h) xr yr).2.trace =
      d.trace ++
        [.writeGeneratorUniform (w, h) xr yr,
         .createBuffer d.nextId (mul32 (mul32 (mul32 w h) 4) 6),
         .createBuffer (d.nextId + 1)
           (mul32 (mul32 (mul32 (sub32 w 1) (sub32 h 1)) 6) 4),
         .dispatch .genVertex d.nextId
           (if 0 < w % 16 then w / 16 + 1 else w / 16)
           (if 0 < h % 16 then h / 16 + 1 else h / 16) 1,
         .dispatch .genIndex (d.nextId + 1)
           (if 0 < w % 16 then w / 16 + 1 else w / 16)
           (if 0 < h % 16 then h / 16 + 1 else h / 16) 1,
         .submitQueue] := by
  simp [generate_buffers, Device.emit, Device.createBuffer]

theorem chunk_eq_ceilDiv (n : ℕ) :
    (if 0 < n % 16 then n / 16 + 1 else n / 16) = (n + 15) / 16 := by
  split <;> omega

theorem ceil_div_16 (a : ℕ) : (((a + 15) / 16 : ℕ) : ℤ) = ⌈(a : ℚ) / 16⌉ := by
  rw [eq_comm, Int.ceil_eq_iff]
  have h1 : 16 * ((a + 15) / 16) ≤ a + 15 := by omega
  have h2 : a ≤ 16 * ((a + 15) / 16) := by omega
  constructor
  · rw [lt_div_iff₀ (by norm_num : (0 : ℚ) < 16), Int.cast_natCast]
    have h1' : ((16 * ((a + 15) / 16) : ℕ) : ℚ) ≤ ((a + 15 : ℕ) : ℚ) := by
      exact_mod_cast h1
    push_cast at h1'
    linarith
  · rw [div_le_iff₀ (by norm_num : (0 : ℚ) < 16), Int.cast_natCast]
    have h2' : ((a : ℕ) : ℚ) ≤ ((16 * ((a + 15) / 16) : ℕ) : ℚ) := by
      exact_mod_cast h2
    push_cast at h2'
    linarith

theorem ceil_div_256 (a : ℕ) : (((a + 255) / 256 : ℕ) : ℤ) = ⌈(a : ℚ) / 256⌉ := by
  rw [eq_comm, Int.ceil_eq_iff]
  have h1 : 256 * ((a + 255) / 256) ≤ a + 255 := by omega
  have h2 : a ≤ 256 * ((a + 255) / 256) := by omega
  constructor
  · rw [lt_div_iff₀ (by norm_num : (0 : ℚ) < 256), Int.cast_natCast]
    have h1' : ((256 * ((a + 255) / 256) : ℕ) : ℚ) ≤ ((a + 255 : ℕ) : ℚ) := by
      exact_mod_cast h1
    push_cast at h1'
    linarith
  · rw [div_le_iff₀ (by norm_num : (0 : ℚ) < 256), Int.cast_natCast]
    have h2' : ((a : ℕ) : ℚ) ≤ ((256 * ((a + 255) / 256) : ℕ) : ℚ) := by
      exact_mod_cast h2
    push_cast at h2'
    linarith

/-- C2: generate_buffers dispatches each generation pipeline with
ceil(w/16) by ceil(h/16) workgroups (and nothing else dispatches them),
and stores an evaluator dispatch count of ceil(w*h/256). -/
theorem generate_buffers_dispatch_counts (d : Device) (w h : ℕ) (xr yr : ℚ × ℚ)
    (hw : 2 ≤ w) (hh : 2 ≤ h) (hvc : w * h < M32) :
    ((generate_buffers d (w, h) xr yr).2.trace.filter isGenDispatch
        = d.trace.filter isGenDispatch ++
          [.dispatch .genVertex d.nextId ((w + 15) / 16) ((h + 15) / 16) 1,
           .dispatch .genIndex (d.nextId + 1) ((w + 15) / 16) ((h + 15) / 16) 1]) ∧
    (((w + 15) / 16 : ℕ) : ℤ) = ⌈(w : ℚ) / 16⌉ ∧
    (((h + 15) / 16 : ℕ) : ℤ) = ⌈(h : ℚ) / 16⌉ ∧
    (generate_buffers d (w, h) xr yr).1.evaluator_dispatch_count = (w * h + 255) / 256 ∧
    (((w * h + 255) / 256 : ℕ) : ℤ) = ⌈((w * h : ℕ) : ℚ) / 256⌉ := by
  refine ⟨?_, ceil_div_16 w, ceil_div_16 h, ?_, ceil_div_256 (w * h)⟩
  · rw [generate_buffers_trace, List.filter_append, chunk_eq_ceilDiv w, chunk_eq_ceilDiv h]
    simp [isGenDispatch]
  · simp only [generate_buffers_fields]
    have hm : mul32 w h = w * h := by
      unfold mul32
      exact Nat.mod_eq_of_lt hvc
    rw [hm]
    split <;> omega

/-- Witness for C2 at resolution (31, 32): both axes get 2 chunks (the
16+15 and 16+16 splits), and the evaluator dispatch count is
ceil(992/256) = 4. -/
theorem generate_buffers_dispatch_counts_witness :
    ((2 : ℕ) ≤ 31 ∧ (2 : ℕ) ≤ 32 ∧ (31 * 32 : ℕ) < M32) ∧
    ((generate_buffers Device.empty (31, 32) (-5, 5) (-5, 5)).2.trace.filter isGenDispatch
        = [.dispatch .genVertex 0 2 2 1, .dispatch .genIndex 1 2 2 1]) ∧
    (generate_buffers Device.empty (31, 32) (-5, 5) (-5, 5)).1.evaluator_dispatch_count = 4 := by
  have h := generate_buffers_dispatch_counts Device.empty 31 32 (-5, 5) (-5, 5)
    (by decide) (by decide) (by decide)
  refine ⟨⟨by decide, by decide, by decide⟩, ?_, h.2.2.2.1.trans (by decide)⟩
  have h1 := h.1
  simp only [Device.empty, List.filter_nil, List.nil_append] at h1
  exact h1.trans (by decide)

/-- C10: the u32 index-count subtractions in generate_buffers do not
underflow for any resolution with both components at least 1 (the
wrapped u32 difference equals the true difference), while a zero
component makes the subtraction wrap: at resolution (0, 5) the index
count becomes 4294967272 instead of a value of the form
(w-1)*(h-1)*6. -/
theorem index_count_no_underflow :
    (∀ w h : ℕ, 1 ≤ w → w < M32 → 1 ≤ h → h < M32 →
        sub32 w 1 = w - 1 ∧ sub32 h 1 = h - 1) ∧
    sub32 0 1 = M32 - 1 ∧
    (generate_buffers Device.empty (0, 5) (-5, 5) (-5, 5)).1.index_count = 4294967272 := by
  refine ⟨fun w h hw hw32 hh hh32 =>
      ⟨sub32_eq_sub hw hw32 (by norm_num [M32]),
       sub32_eq_sub hh hh32 (by norm_num [M32])⟩, by decide, ?_⟩
  simp only [generate_buffers_fields]
  decide

theorem index_count_no_underflow_witness :
    sub32 3 1 = 3 - 1 ∧ sub32 4 1 = 4 - 1 :=
  index_count_no_underflow.1 3 4 (by decide) (by decide) (by decide) (by decide)

theorem resize_inv_enabled (s : State) (d : Device) (w h : ℕ)
    (hw : 0 < w) (hh : 0 < h) (hf : s.multisampling_enabled = true) :
    StateInv (s.resize d w h).1 := by
  cases hmt : s.multisample_texture <;>
    simp [StateInv, State.resize, hw, hh, hf, hmt, State.create_depth_texture,
      State.create_multisample_texture, Device.createTexture,
      Device.destroyTexture, Device.emit]

theorem resize_inv_disabled (s : State) (d : Device) (w h : ℕ)
    (hw : 0 < w) (hh : 0 < h) (hf : s.multisampling_enabled = false)
    (hms : s.multisample_texture = none)
    (hmv : s.multisample_texture_view = none) :
    StateInv (s.resize d w h).1 := by
  simp [StateInv, State.resize, hw, hh, hf, hms, hmv, State.create_depth_texture,
    Device.createTexture, Device.destroyTexture, Device.emit]

theorem resize_preserves_inv (s : State) (d : Device) (w h : ℕ)
    (hinv : StateInv s) : StateInv (s.resize d w h).1 := by
  by_cases hc : 0 < w ∧ 0 < h
  · obtain ⟨h1, h2, h3, hw0, hh0⟩ := hinv
    cases hf : s.multisampling_enabled
    · have hms : s.multisample_texture = none := by
        cases hmt : s.multisample_texture
        · rfl
        · exfalso
          rw [hmt, hf] at h1
          simp at h1
      have hmv : s.multisample_texture_view = none := by
        cases hmt : s.multisample_texture_view
        · rfl
        · exfalso
          rw [hmt, hf] at h2
          simp at h2
      exact resize_inv_disabled s d w h hc.1 hc.2 hf hms hmv
    · exact resize_inv_enabled s d w h hc.1 hc.2 hf
  · have hid : s.resize d w h = (s, d) := by
      unfold State.resize
      rw [if_neg hc]
    rw [hid]
    exact hinv

theorem sgr_preserves_inv (s : State) (d : Device) (w h : ℕ)
    (hinv : StateInv s) : StateInv (s.set_grid_resolution d w h).1 :=
  hinv

theorem move_camera_preserves_inv (s : State) (d : Device) (dist zen az : ℚ)
    (hinv : StateInv s) : StateInv (s.move_camera d dist zen az).1 :=
  hinv

theorem render_preserves_inv (s : State) (d : Device) (hinv : StateInv s)
    (s' : State) (d' : Device) (h : s.render d = some (s', d')) :
    StateInv s' := by
  unfold State.render at h
  split at h
  · exact absurd h (by simp)
  · simp only [Option.some.injEq, Prod.mk.injEq] at h
    rw [← h.1]
    exact hinv

theorem set_ms_preserves_inv (s : State) (d : Device) (hinv : StateInv s)
    (e : Bool) (s' : State) (d' : Device)
    (h : s.set_multisampling_enabled d e = some (s', d')) : StateInv s' := by
  obtain ⟨h1, h2, h3, hw0, hh0⟩ := hinv
  cases e
  · cases hf : s.multisampling_enabled
    · unfold State.set_multisampling_enabled at h
      simp [hf] at h
      rw [← h.1]
      exact ⟨h1, h2, h3, hw0, hh0⟩
    · obtain ⟨t, hmt⟩ : ∃ t, s.multisample_texture = some t := by
        cases hmt : s.multisample_texture
        · exfalso
          rw [hmt, hf] at h1
          simp at h1
        · exact ⟨_, rfl⟩
      unfold State.set_multisampling_enabled at h
      simp [hf, hmt] at h
      rw [← h.1]
      exact resize_inv_disabled _ _ _ _ hw0 hh0 rfl rfl rfl
  · cases hf : s.multisampling_enabled
    · unfold State.set_multisampling_enabled at h
      simp [hf] at h
      rw [← h.1]
      exact resize_inv_enabled _ _ _ _ hw0 hh0 rfl
    · unfold State.set_multisampling_enabled at h
      simp [hf] at h
      rw [← h.1]
      exact ⟨h1, h2, h3, hw0, hh0⟩

/-- C4: from any state satisfying the resource invariant, every public
State operation (resize, set_grid_resolution, move_camera,
set_multisampling_enabled, render) leaves a state in which the
multisample texture exists iff multisampling is enabled and the depth
texture's sample count equals the active render sample count. -/
theorem state_ops_preserve_invariant (s : State) (d : Device)
    (hinv : StateInv s) :
    (∀ w h, StateInv (s.resize d w h).1) ∧
    (∀ w h, StateInv (s.set_grid_resolution d w h).1) ∧
    (∀ dist zen az, StateInv (s.move_camera d dist zen az).1) ∧
    (∀ e s' d', s.set_multisampling_enabled d e = some (s', d') → StateInv s') ∧
    (∀ s' d', s.render d = some (s', d') → StateInv s') :=
  ⟨fun w h => resize_preserves_inv s d w h hinv,
   fun w h => sgr_preserves_inv s d w h hinv,
   fun dist zen az => move_camera_preserves_inv s d dist zen az hinv,
   fun e s' d' hsome => set_ms_preserves_inv s d hinv e s' d' hsome,
   fun s' d' hsome => render_preserves_inv s d hinv s' d' hsome⟩

theorem sampleState_inv : StateInv sampleState :=
  ⟨rfl, rfl, rfl, by decide, by decide⟩

/-- Witness for C4 at a concrete invariant-satisfying state. -/
theorem state_ops_preserve_invariant_witness :
    StateInv sampleState ∧ StateInv (sampleState.resize Device.empty 64 64).1 :=
  ⟨sampleState_inv,
   (state_ops_preserve_invariant sampleState Device.empty sampleState_inv).1 64 64⟩

/-- C5: a resize request with a zero component is a complete no-op: the
state (surface configuration, depth texture and view, multisample
texture, camera) and the device (trace, so in particular the camera
uniform buffer contents) are returned unchanged. -/
theorem resize_zero_is_noop (s : State) (d : Device) (w h : ℕ) :
    s.resize d 0 h = (s, d) ∧ s.resize d w 0 = (s, d) := by
  constructor <;> simp [State.resize]

/-- C6: set_grid_resolution destroys both buffers of the current
GridBuffers first, then writes the generator uniform with the fixed
ranges -5..5 and -5..5, creates the replacement buffers, dispatches the
generation passes, and dispatches the evaluator over the new vertex
buffer, all before returning; the installed GridBuffers are exactly the
freshly created ones. -/
theorem set_grid_resolution_spec (s : State) (d : Device) (w h : ℕ) :
    ∃ vbytes ibytes cx cy,
      (s.set_grid_resolution d w h).2.trace =
        d.trace ++
          [.destroyBuffer s.meshgrid_buffers.vertex_buffer.id,
           .destroyBuffer s.meshgrid_buffers.index_buffer.id,
           .writeGeneratorUniform (w, h) (-5, 5) (-5, 5),
           .createBuffer d.nextId vbytes,
           .createBuffer (d.nextId + 1) ibytes,
           .dispatch .genVertex d.nextId cx cy 1,
           .dispatch .genIndex (d.nextId + 1) cx cy 1,
           .submitQueue,
           .dispatch .evaluator d.nextId
             (s.set_grid_resolution d w h).1.meshgrid_buffers.evaluator_dispatch_count 1 1,
           .submitQueue] ∧
      (s.set_grid_resolution d w h).1.meshgrid_buffers.vertex_buffer.id = d.nextId ∧
      (s.set_grid_resolution d w h).1.meshgrid_buffers.index_buffer.id = d.nextId + 1 ∧
      (s.set_grid_resolution d w h).1.meshgrid_buffers.evaluator_bind_group = d.nextId := by
  refine ⟨mul32 (mul32 (mul32 w h) 4) 6,
    mul32 (mul32 (mul32 (sub32 w 1) (sub32 h 1)) 6) 4,
    (if 0 < w % 16 then w / 16 + 1 else w / 16),
    (if 0 < h % 16 then h / 16 + 1 else h / 16), ?_, rfl, rfl, rfl⟩
  simp [State.set_grid_resolution, GridBuffers.destroy, generate_buffers,
    evaluate_buffers, Device.emit, Device.createBuffer, Device.destroyBuffer]

/-- C7: from an invariant-satisfying state with multisampling disabled,
enabling then disabling multisampling succeeds and returns the depth
texture sample count and the render pipeline sample count to 1, leaving
no multisample texture and no multisample texture view. -/
theorem multisampling_roundtrip (s : State) (d : Device) (hinv : StateInv s)
    (hoff : s.multisampling_enabled = false) :
    (msRoundTrip s d).map (fun p => p.1.depth_texture.sampleCount) = some 1 ∧
    (msRoundTrip s d).map (fun p => p.1.render_pipeline.sampleCount) = some 1 ∧
    (msRoundTrip s d).map (fun p => p.1.multisample_texture) = some none ∧
    (msRoundTrip s d).map (fun p => p.1.multisample_texture_view) = some none := by
  obtain ⟨h1, h2, h3, hw0, hh0⟩ := hinv
  have hms : s.multisample_texture = none := by
    cases hmt : s.multisample_texture
    · rfl
    · exfalso
      rw [hmt, hoff] at h1
      simp at h1
  simp [msRoundTrip, State.set_multisampling_enabled, hoff, hms, State.resize,
    hw0, hh0, State.create_depth_texture, State.create_multisample_texture,
    Device.createTexture, Device.destroyTexture, Device.emit]

/-- Witness for C7 at a concrete invariant-satisfying state with
multisampling off. -/
theorem multisampling_roundtrip_witness :
    StateInv sampleState ∧ sampleState.multisampling_enabled = false ∧
    ((msRoundTrip sampleState Device.empty).map
        (fun p => p.1.depth_texture.sampleCount) = some 1 ∧
     (msRoundTrip sampleState Device.empty).map
        (fun p => p.1.render_pipeline.sampleCount) = some 1 ∧
     (msRoundTrip sampleState Device.empty).map
        (fun p => p.1.multisample_texture) = some none ∧
     (msRoundTrip sampleState Device.empty).map
        (fun p => p.1.multisample_texture_view) = some none) :=
  ⟨sampleState_inv, rfl,
   multisampling_roundtrip sampleState Device.empty sampleState_inv rfl⟩

end Wasmgpu
